import Mathlib

/-!
# Verification of the `logStatus` library

A shallow embedding of the repository's `src/logStatus.ts`:
a `StatusSchemaManager` holding a severity-class → status-code → message
registry plus a global silent-mode flag, and the `logStatus` function that
classifies a status code, resolves a message, emits console output (unless
silenced) and returns an API response envelope.

The registry is a JavaScript object, so the embedding keeps the key
*insertion order* of the top-level severity-class keys explicitly: `delete`
removes a key, and re-adding a deleted key places it at the end of the
iteration order.  Buckets have numeric keys, for which only membership,
lookup and emptiness are ever observed, so an association list is faithful.
-/

/-- The three severity classes (`keyof StatusSchema` in `types.ts`). -/
inductive StatusType where
  | SUCCESS
  | WARN
  | ERROR
deriving DecidableEq, Repr

/-- JavaScript runtime values, as far as the `error` argument of
`logStatus` can observe them: `if (error)` (truthiness) and
`error instanceof Error ? error.message : error`. -/
inductive JSValue where
  | undef
  | nullv
  | jsBool (b : Bool)
  | num (n : Int)
  | nan
  | str (s : String)
  | errObj (message : String)
  | obj
deriving DecidableEq, Repr

/-- JavaScript truthiness: `undefined`, `null`, `false`, `0`, `NaN` and
the empty string are falsy; everything else is truthy. -/
def truthy : JSValue → Bool
  | .undef => false
  | .nullv => false
  | .jsBool b => b
  | .num n => n != 0
  | .nan => false
  | .str s => s != ""
  | .errObj _ => true
  | .obj => true

/-- `error instanceof Error ? error.message : error` from `logStatus`. -/
def stringifyErr : JSValue → JSValue
  | .errObj m => .str m
  | v => v

/-- One class bucket: `Record<number, { message: string }>`. -/
abbrev Bucket := List (Int × String)

/-- The schema object: severity-class keys in JavaScript insertion
order, each with its bucket. -/
abbrev Schema := List (StatusType × Bucket)

/-- Bucket lookup: `bucket[code]?.message`. -/
def bucketGet : Bucket → Int → Option String
  | [], _ => none
  | (c', m) :: rest, c => if c' = c then some m else bucketGet rest c

/-- Bucket write `bucket[code] = { message }`: overwrite in place if the
key exists, otherwise add the key. -/
def bucketSet : Bucket → Int → String → Bucket
  | [], c, m => [(c, m)]
  | (c', m') :: rest, c, m =>
    if c' = c then (c, m) :: rest else (c', m') :: bucketSet rest c m

/-- Bucket delete `delete bucket[code]`. -/
def bucketDel : Bucket → Int → Bucket
  | [], _ => []
  | (c', m') :: rest, c =>
    if c' = c then bucketDel rest c else (c', m') :: bucketDel rest c

/-- Schema lookup `schema[type]` (first occurrence of the key). -/
def schemaGet : Schema → StatusType → Option Bucket
  | [], _ => none
  | (t', b) :: rest, t => if t' = t then some b else schemaGet rest t

/-- `updateStatus` on the raw schema object:
`if (!schema[type]) schema[type] = {}; schema[type][code] = {message}` —
an existing class key keeps its position, a fresh class key is appended
at the end of the iteration order. -/
def schemaUpdate : Schema → StatusType → Int → String → Schema
  | [], t, c, m => [(t, bucketSet [] c m)]
  | (t', b) :: rest, t, c, m =>
    if t' = t then (t', bucketSet b c m) :: rest
    else (t', b) :: schemaUpdate rest t c m

/-- `removeStatus` on the raw schema object:
`if (schema[type]) { delete schema[type][code];
 if (Object.keys(schema[type]).length === 0) delete schema[type]; }`. -/
def schemaRemove : Schema → StatusType → Int → Schema
  | [], _, _ => []
  | (t', b) :: rest, t, c =>
    if t' = t then
      (if bucketDel b c = [] then rest else (t', bucketDel b c) :: rest)
    else (t', b) :: schemaRemove rest t c

/-- The mutable state of a `StatusSchemaManager` instance. -/
structure ManagerState where
  schema : Schema
  silentMode : Bool
deriving DecidableEq, Repr

/-- The schema the manager is seeded with at construction. -/
def initialSchema : Schema :=
  [(.SUCCESS, [(200, "Success")]),
   (.WARN, [(300, "Warning"), (301, "Redirect"), (302, "Found"),
            (304, "Not Modified")]),
   (.ERROR, [(400, "Bad Request"), (401, "Unauthorized"), (403, "Forbidden"),
             (404, "Not Found"), (500, "Internal Server Error")])]

/-- The module-level shared instance, in its initial state
(`silentMode` defaults to `false`). -/
def statusSchemaManager : ManagerState := ⟨initialSchema, false⟩

/-- `getSchema()`. -/
def getSchema (s : ManagerState) : Schema := s.schema

/-- `setSilentMode(silent)`. -/
def setSilentMode (s : ManagerState) (silent : Bool) : ManagerState :=
  { s with silentMode := silent }

/-- `getSilentMode()`. -/
def getSilentMode (s : ManagerState) : Bool := s.silentMode

/-- `getStatusMessage(type, code)`: `schema[type]?.[code]?.message`. -/
def getStatusMessage (s : ManagerState) (t : StatusType) (c : Int) :
    Option String :=
  (schemaGet s.schema t).bind (fun b => bucketGet b c)

/-- `updateStatus(type, code, message)`. -/
def updateStatus (s : ManagerState) (t : StatusType) (c : Int)
    (m : String) : ManagerState :=
  { s with schema := schemaUpdate s.schema t c m }

/-- `removeStatus(type, code)`. -/
def removeStatus (s : ManagerState) (t : StatusType) (c : Int) :
    ManagerState :=
  { s with schema := schemaRemove s.schema t c }

/-- The `Status` type of `types.ts`: a numeric code and an optional
message override (`none` stands for the JavaScript `undefined`/`null`,
which `logStatus` treats identically). -/
structure Status where
  code : Int
  message : Option String
deriving DecidableEq, Repr

/-- The `APISchema<T>` response envelope of `types.ts`. -/
structure APISchema (T : Type) where
  status : Status
  data : Option T
  error : Option JSValue
deriving DecidableEq, Repr

/-- One console write performed by `logStatus`, in order of emission. -/
inductive ConsoleOut (T : Type) where
  /-- `console.log` of a header line (`[SUCCESS] ...`). -/
  | logLine (s : String)
  /-- `console.log('  └─', message)` — the payload on the log channel. -/
  | logData (d : T)
  /-- `console.warn` of a header line (`[WARN] ...`). -/
  | warnLine (s : String)
  /-- `console.warn('  └─', message)` — the payload on the warn channel. -/
  | warnData (d : T)
  /-- `console.error` of a header line. -/
  | errLine (s : String)
  /-- `console.error('  │─', message)` — payload, before an error value. -/
  | errDataMid (d : T)
  /-- `console.error('  └─', message)` — payload as the last line. -/
  | errDataEnd (d : T)
  /-- `console.error('  └─ ' + errorMessage)` — the stringified error. -/
  | errValue (v : JSValue)
deriving DecidableEq, Repr

/-- The classification scan of `logStatus` lines 154–156:
`Object.keys(statusSchema).find(key => statusSchema[key]?.[status.code])` —
the first class key, in the schema's iteration order, whose bucket
contains the code. -/
def classify : Schema → Int → Option StatusType
  | [], _ => none
  | (t, b) :: rest, c =>
    if (bucketGet b c).isSome then some t else classify rest c

/-- Message resolution of `logStatus` lines 158–179: the caller's
`status.message` if it is neither `undefined` nor `null`; else the
registry message for the classified class; else the `switch` fallback
(`Success`/`Warning`/`Error` per class, `Unknown status` when no class
matched). -/
def resolveMessage (l : Schema) (stat : Status) : String :=
  match stat.message with
  | some m => m
  | none =>
    match classify l stat.code with
    | some t =>
      match (schemaGet l t).bind (fun b => bucketGet b stat.code) with
      | some m => m
      | none =>
        match t with
        | .SUCCESS => "Success"
        | .WARN => "Warning"
        | .ERROR => "Error"
    | none => "Unknown status"

/-- `logStatus(status, message, error, silent)`, lines 146–224 of
`logStatus.ts`.  Returns the envelope, the list of console writes in
order, and the manager state the call leaves behind.  The source never
throws: every branch returns an envelope. -/
def logStatus {T : Type} (mgr : ManagerState) (status : Status)
    (message : T) (error : JSValue) (silent : Option Bool) :
    APISchema T × List (ConsoleOut T) × ManagerState :=
  let statusSchema := getSchema mgr
  let statusType := classify statusSchema status.code
  let logMessage := resolveMessage statusSchema status
  let status' : Status := ⟨status.code, some logMessage⟩
  let isSilent := match silent with
    | some b => b
    | none => getSilentMode mgr
  match statusType with
  | some .SUCCESS =>
    (⟨status', some message, none⟩,
     if isSilent then []
     else [.logLine ("[SUCCESS] " ++ logMessage), .logData message],
     mgr)
  | some .ERROR =>
    if isSilent then
      if truthy error then
        (⟨status', none, some (stringifyErr error)⟩, [], mgr)
      else
        (⟨status', none, some (.str logMessage)⟩, [], mgr)
    else
      if truthy error then
        (⟨status', none, some (stringifyErr error)⟩,
         [.errLine ("[ERROR] " ++ logMessage), .errDataMid message,
          .errValue (stringifyErr error)],
         mgr)
      else
        (⟨status', none, some (.str logMessage)⟩,
         [.errLine ("[ERROR] " ++ logMessage), .errDataEnd message],
         mgr)
  | some .WARN =>
    (⟨status', some message, none⟩,
     if isSilent then []
     else [.warnLine ("[WARN] " ++ logMessage), .warnData message],
     mgr)
  | none =>
    (⟨status', none, some (.str "Internal Server Error")⟩,
     if isSilent then []
     else [.errLine ("[ERROR] Invalid status code: " ++ toString status.code)],
     mgr)

/-- Manager states reachable from the seeded module-level instance by
the public mutators.  (`logStatus` itself is proved to leave the state
unchanged, so it adds no reachable states.) -/
inductive Reachable : ManagerState → Prop where
  | init : Reachable statusSchemaManager
  | update {s} (t : StatusType) (c : Int) (m : String) :
      Reachable s → Reachable (updateStatus s t c m)
  | remove {s} (t : StatusType) (c : Int) :
      Reachable s → Reachable (removeStatus s t c)
  | silence {s} (b : Bool) :
      Reachable s → Reachable (setSilentMode s b)

/-- Whether the registry, looked up as `logStatus` does, has the code
registered under the given class: `schema[t]?.[c]` is present. -/
def containsIn (l : Schema) (t : StatusType) (c : Int) : Bool :=
  ((schemaGet l t).bind (fun b => bucketGet b c)).isSome

/-- The classification the spec describes for claim C5: scan the
severity classes in the fixed order SUCCESS, WARN, ERROR and use the
first class whose bucket contains the code. -/
def classifyFixedOrder (l : Schema) (c : Int) : Option StatusType :=
  if containsIn l .SUCCESS c then some .SUCCESS
  else if containsIn l .WARN c then some .WARN
  else if containsIn l .ERROR c then some .ERROR
  else none

/-- The message-resolution priority described by claim C2: (1) the
caller's `status.message` when supplied (non-null, non-absent), verbatim;
(2) else the registry's message for the classified class and code when
registered; (3) else the class-specific fallback, or `Unknown status`
when no class matched. -/
def resolveMessageSpec (l : Schema) (stat : Status) : String :=
  match stat.message with
  | some m => m
  | none =>
    match classify l stat.code with
    | some t =>
      ((schemaGet l t).bind (fun b => bucketGet b stat.code)).getD
        (match t with
         | .SUCCESS => "Success"
         | .WARN => "Warning"
         | .ERROR => "Error")
    | none => "Unknown status"

/-- A registry state in which the `SUCCESS` bucket was emptied (removing
its key) and then repopulated: the `SUCCESS` key now sits *after* `WARN`
and `ERROR` in the schema's iteration order, and code `300` is registered
under both `WARN` and `SUCCESS`. -/
def recreatedState : ManagerState :=
  updateStatus (removeStatus statusSchemaManager .SUCCESS 200) .SUCCESS 300 "Fine"

/- ## Helper lemmas -/

lemma logStatus_success {T : Type} (mgr : ManagerState) (stat : Status)
    (msg : T) (err : JSValue) (sil : Option Bool)
    (h : classify mgr.schema stat.code = some .SUCCESS) :
    (logStatus mgr stat msg err sil).1 =
      ⟨⟨stat.code, some (resolveMessage mgr.schema stat)⟩, some msg, none⟩ := by
  unfold logStatus
  simp only [getSchema, h]

lemma logStatus_warn {T : Type} (mgr : ManagerState) (stat : Status)
    (msg : T) (err : JSValue) (sil : Option Bool)
    (h : classify mgr.schema stat.code = some .WARN) :
    (logStatus mgr stat msg err sil).1 =
      ⟨⟨stat.code, some (resolveMessage mgr.schema stat)⟩, some msg, none⟩ := by
  unfold logStatus
  simp only [getSchema, h]

lemma logStatus_error {T : Type} (mgr : ManagerState) (stat : Status)
    (msg : T) (err : JSValue) (sil : Option Bool)
    (h : classify mgr.schema stat.code = some .ERROR) :
    (logStatus mgr stat msg err sil).1 =
      ⟨⟨stat.code, some (resolveMessage mgr.schema stat)⟩, none,
       some (if truthy err then stringifyErr err
             else .str (resolveMessage mgr.schema stat))⟩ := by
  unfold logStatus
  simp only [getSchema, h]
  cases htr : truthy err <;> split_ifs <;> simp [htr]

lemma logStatus_unclassified {T : Type} (mgr : ManagerState) (stat : Status)
    (msg : T) (err : JSValue) (sil : Option Bool)
    (h : classify mgr.schema stat.code = none) :
    (logStatus mgr stat msg err sil).1 =
      ⟨⟨stat.code, some (resolveMessage mgr.schema stat)⟩, none,
       some (.str "Internal Server Error")⟩ := by
  unfold logStatus
  simp only [getSchema, h]

lemma logStatus_state {T : Type} (mgr : ManagerState) (stat : Status)
    (msg : T) (err : JSValue) (sil : Option Bool) :
    (logStatus mgr stat msg err sil).2.2 = mgr := by
  unfold logStatus
  simp only [getSchema]
  cases h : classify mgr.schema stat.code with
  | none => simp
  | some t => cases t <;> split_ifs <;> simp

lemma logStatus_out_silent_arg {T : Type} (mgr : ManagerState) (stat : Status)
    (msg : T) (err : JSValue) :
    (logStatus mgr stat msg err (some true)).2.1 = [] := by
  unfold logStatus
  simp only [getSchema]
  cases h : classify mgr.schema stat.code with
  | none => simp
  | some t => cases t <;> split_ifs <;> simp

lemma logStatus_out_silent_global {T : Type} (mgr : ManagerState)
    (stat : Status) (msg : T) (err : JSValue)
    (h : mgr.silentMode = true) :
    (logStatus mgr stat msg err none).2.1 = [] := by
  unfold logStatus
  simp only [getSchema, getSilentMode, h]
  cases hc : classify mgr.schema stat.code with
  | none => simp
  | some t => cases t <;> split_ifs <;> simp

lemma logStatus_fst_silent_irrel {T : Type} (mgr : ManagerState)
    (stat : Status) (msg : T) (err : JSValue) (sil sil' : Option Bool)
    (b : Bool) :
    (logStatus (setSilentMode mgr b) stat msg err sil).1 =
      (logStatus mgr stat msg err sil').1 := by
  have hsc : (setSilentMode mgr b).schema = mgr.schema := rfl
  cases h : classify mgr.schema stat.code with
  | none =>
    rw [logStatus_unclassified _ _ _ _ _ (by rw [hsc]; exact h),
        logStatus_unclassified _ _ _ _ _ h, hsc]
  | some t =>
    cases t with
    | SUCCESS =>
      rw [logStatus_success _ _ _ _ _ (by rw [hsc]; exact h),
          logStatus_success _ _ _ _ _ h, hsc]
    | WARN =>
      rw [logStatus_warn _ _ _ _ _ (by rw [hsc]; exact h),
          logStatus_warn _ _ _ _ _ h, hsc]
    | ERROR =>
      rw [logStatus_error _ _ _ _ _ (by rw [hsc]; exact h),
          logStatus_error _ _ _ _ _ h, hsc]

lemma resolveMessage_eq_spec (l : Schema) (stat : Status) :
    resolveMessage l stat = resolveMessageSpec l stat := by
  unfold resolveMessage resolveMessageSpec
  split
  · rfl
  · split
    · split
      · simp_all
      · rename_i t heqc x hnone
        rw [hnone, Option.getD_none]
    · rfl

lemma classify_eq_none_iff (l : Schema) (c : Int) :
    classify l c = none ↔ ∀ p ∈ l, bucketGet p.2 c = none := by
  induction l with
  | nil => simp [classify]
  | cons hd tl ih =>
    obtain ⟨t, b⟩ := hd
    cases hb : bucketGet b c with
    | some m =>
      simp only [classify, hb, Option.isSome_some, if_true]
      constructor
      · intro h; exact absurd h (by simp)
      · intro h
        exact absurd (h (t, b) (List.mem_cons_self _ _)) (by simp [hb])
    | none =>
      simp only [classify, hb, Option.isSome_none, Bool.false_eq_true,
        if_false, ih]
      constructor
      · intro h p hp
        rcases List.mem_cons.mp hp with h1 | h2
        · rw [h1]; exact hb
        · exact h p h2
      · intro h p hp
        exact h p (List.mem_cons_of_mem _ hp)

lemma setSilentMode_self (mgr : ManagerState) :
    setSilentMode mgr mgr.silentMode = mgr := rfl

lemma logStatus_sil_arg_schema {T : Type} (mgr mgr' : ManagerState)
    (h : mgr.schema = mgr'.schema) (stat : Status) (msg : T) (err : JSValue)
    (b : Bool) :
    (logStatus mgr stat msg err (some b)).1 =
        (logStatus mgr' stat msg err (some b)).1
    ∧ (logStatus mgr stat msg err (some b)).2.1 =
        (logStatus mgr' stat msg err (some b)).2.1 := by
  unfold logStatus
  rw [show getSchema mgr = mgr.schema from rfl,
      show getSchema mgr' = mgr'.schema from rfl, h]
  cases hc : classify mgr'.schema stat.code with
  | none => simp only [hc]; simp
  | some t => simp only [hc]; cases t <;> split_ifs <;> simp

/- ## The claims -/

/-- C2: for every call, the resolved message in the envelope's `status`
field follows the priority order: (1) a supplied `status.message`
(including the empty string) verbatim; (2) else the registry's message
for the classified class and code; (3) else the class fallback
`Success`/`Warning`/`Error`, or `Unknown status` when no class matched. -/
theorem claim_C2 {T : Type} (mgr : ManagerState) (stat : Status) (msg : T)
    (err : JSValue) (sil : Option Bool) :
    (logStatus mgr stat msg err sil).1.status =
      ⟨stat.code, some (resolveMessageSpec mgr.schema stat)⟩ := by
  rw [← resolveMessage_eq_spec]
  cases h : classify mgr.schema stat.code with
  | none => rw [logStatus_unclassified mgr stat msg err sil h]
  | some t =>
    cases t with
    | SUCCESS => rw [logStatus_success mgr stat msg err sil h]
    | WARN => rw [logStatus_warn mgr stat msg err sil h]
    | ERROR => rw [logStatus_error mgr stat msg err sil h]

/-- C6: silencing — whether via `setSilentMode(true)` or a per-call
`silent = true` — never changes the returned envelope, and a silenced
call produces no console output for any class. -/
theorem claim_C6 {T : Type} (mgr : ManagerState) (stat : Status) (msg : T)
    (err : JSValue) (sil : Option Bool) (b : Bool) :
    (logStatus (setSilentMode mgr b) stat msg err sil).1 =
        (logStatus mgr stat msg err none).1
    ∧ (logStatus mgr stat msg err (some true)).1 =
        (logStatus mgr stat msg err none).1
    ∧ (logStatus (setSilentMode mgr true) stat msg err none).2.1 = []
    ∧ (logStatus mgr stat msg err (some true)).2.1 = [] := by
  refine ⟨logStatus_fst_silent_irrel mgr stat msg err sil none b, ?_,
      logStatus_out_silent_global _ stat msg err rfl,
      logStatus_out_silent_arg mgr stat msg err⟩
  have h := logStatus_fst_silent_irrel mgr stat msg err (some true) none
    mgr.silentMode
  rwa [setSilentMode_self] at h

/-- C7: the effective silencing of a single call is the per-call
`silent` argument when provided and the registry's global `silentMode`
otherwise; the call leaves the registry state unchanged, so a subsequent
call without the argument uses the global flag's current value. -/
theorem claim_C7 {T : Type} (mgr : ManagerState) (stat stat2 : Status)
    (msg msg2 : T) (err err2 : JSValue) (sil : Option Bool) (b b' : Bool) :
    (logStatus (setSilentMode mgr b') stat msg err (some b)).1 =
        (logStatus mgr stat msg err (some b)).1
    ∧ (logStatus (setSilentMode mgr b') stat msg err (some b)).2.1 =
        (logStatus mgr stat msg err (some b)).2.1
    ∧ logStatus mgr stat msg err none =
        logStatus mgr stat msg err (some (getSilentMode mgr))
    ∧ (logStatus mgr stat msg err sil).2.2 = mgr
    ∧ logStatus ((logStatus mgr stat msg err sil).2.2) stat2 msg2 err2 none =
        logStatus mgr stat2 msg2 err2 (some (getSilentMode mgr)) := by
  refine ⟨(logStatus_sil_arg_schema (setSilentMode mgr b') mgr rfl stat msg
        err b).1,
      (logStatus_sil_arg_schema (setSilentMode mgr b') mgr rfl stat msg
        err b).2, rfl,
      logStatus_state mgr stat msg err sil, ?_⟩
  rw [logStatus_state mgr stat msg err sil]
  exact rfl

/-- C4: for a code present in no severity class of the registry, the
envelope's `error` field is the fixed literal `Internal Server Error`,
regardless of the payload, error, silent arguments and of the resolved
message. -/
theorem claim_C4 {T : Type} (mgr : ManagerState) (stat : Status) (msg : T)
    (err : JSValue) (sil : Option Bool)
    (h : ∀ p ∈ mgr.schema, bucketGet p.2 stat.code = none) :
    (logStatus mgr stat msg err sil).1.error =
        some (.str "Internal Server Error")
    ∧ (logStatus mgr stat msg err sil).1.data = none := by
  rw [logStatus_unclassified mgr stat msg err sil
    ((classify_eq_none_iff _ _).mpr h)]
  exact ⟨rfl, rfl⟩

/-- Witness for C4 at the concrete unregistered code `999`. -/
theorem claim_C4_witness :
    (logStatus statusSchemaManager ⟨999, none⟩ JSValue.obj (.str "boom")
        (some false)).1.error = some (.str "Internal Server Error")
    ∧ (logStatus statusSchemaManager ⟨999, none⟩ JSValue.obj (.str "boom")
        (some false)).1.data = none :=
  claim_C4 statusSchemaManager ⟨999, none⟩ JSValue.obj (.str "boom")
    (some false) (by decide)

/-- C10: for a code classified ERROR, a falsy supplied error value is
treated exactly as an absent one: the envelope's `error` equals the
resolved message, the call is indistinguishable from one without an
error argument, and the supplied value is never logged. -/
theorem claim_C10 {T : Type} (mgr : ManagerState) (stat : Status) (msg : T)
    (v : JSValue) (sil : Option Bool)
    (hE : classify mgr.schema stat.code = some .ERROR)
    (hv : truthy v = false) :
    (logStatus mgr stat msg v sil).1.error =
        some (.str (resolveMessage mgr.schema stat))
    ∧ logStatus mgr stat msg v sil = logStatus mgr stat msg .undef sil
    ∧ ∀ w, ConsoleOut.errValue w ∉ (logStatus mgr stat msg v sil).2.1 := by
  have heq : logStatus mgr stat msg v sil = logStatus mgr stat msg .undef sil := by
    unfold logStatus
    simp only [getSchema, hE, hv, show truthy .undef = false from rfl,
      Bool.false_eq_true, if_false]
  refine ⟨?_, heq, ?_⟩
  · rw [logStatus_error mgr stat msg v sil hE, hv]
    simp
  · intro w
    rw [heq]
    unfold logStatus
    simp only [getSchema, hE, show truthy .undef = false from rfl,
      Bool.false_eq_true, if_false]
    split_ifs <;> simp

/-- Witness for C10 at code `404` with the falsy error value `""`. -/
theorem claim_C10_witness :
    (logStatus statusSchemaManager ⟨404, none⟩ JSValue.obj (.str "")
        none).1.error = some (.str "Not Found")
    ∧ logStatus statusSchemaManager ⟨404, none⟩ JSValue.obj (.str "") none =
        logStatus statusSchemaManager ⟨404, none⟩ JSValue.obj .undef none := by
  have h := claim_C10 statusSchemaManager ⟨404, none⟩ JSValue.obj (.str "")
    none (by decide) (by decide)
  exact ⟨by rw [h.1]; rfl, h.2.1⟩

/-- C1: every envelope carries exactly one of `data` (equal to the
payload, for a code classified SUCCESS or WARN) and `error` (for a code
classified ERROR or matching no class); and for every code registered
under SUCCESS in the seeded registry, a call without a message override
yields `data` set, no `error`, and `status.message` equal to the
registered message.  (The embedding is total, so no exception can be
raised on any path.) -/
theorem claim_C1 :
    (∀ (T : Type) (mgr : ManagerState) (stat : Status) (msg : T)
        (err : JSValue) (sil : Option Bool),
       (((logStatus mgr stat msg err sil).1.data = some msg
           ∧ (logStatus mgr stat msg err sil).1.error = none)
         ∨ ((logStatus mgr stat msg err sil).1.data = none
           ∧ (logStatus mgr stat msg err sil).1.error ≠ none))
     ∧ ((classify mgr.schema stat.code = some .SUCCESS
           ∨ classify mgr.schema stat.code = some .WARN) →
         (logStatus mgr stat msg err sil).1.data = some msg
         ∧ (logStatus mgr stat msg err sil).1.error = none)
     ∧ ((classify mgr.schema stat.code = some .ERROR
           ∨ classify mgr.schema stat.code = none) →
         (logStatus mgr stat msg err sil).1.data = none
         ∧ (logStatus mgr stat msg err sil).1.error ≠ none))
    ∧ (∀ (T : Type) (msg : T) (err : JSValue) (sil : Option Bool)
        (c : Int) (m : String),
       getStatusMessage statusSchemaManager .SUCCESS c = some m →
         (logStatus statusSchemaManager ⟨c, none⟩ msg err sil).1.data = some msg
       ∧ (logStatus statusSchemaManager ⟨c, none⟩ msg err sil).1.error = none
       ∧ (logStatus statusSchemaManager ⟨c, none⟩ msg err sil).1.status.message
           = some m) := by
  constructor
  · intro T mgr stat msg err sil
    refine ⟨?_, ?_, ?_⟩
    · cases h : classify mgr.schema stat.code with
      | none => rw [logStatus_unclassified mgr stat msg err sil h]; right; simp
      | some t =>
        cases t with
        | SUCCESS => rw [logStatus_success mgr stat msg err sil h]; left; simp
        | WARN => rw [logStatus_warn mgr stat msg err sil h]; left; simp
        | ERROR => rw [logStatus_error mgr stat msg err sil h]; right; simp
    · rintro (h | h)
      · rw [logStatus_success mgr stat msg err sil h]; exact ⟨rfl, rfl⟩
      · rw [logStatus_warn mgr stat msg err sil h]; exact ⟨rfl, rfl⟩
    · rintro (h | h)
      · rw [logStatus_error mgr stat msg err sil h]; simp
      · rw [logStatus_unclassified mgr stat msg err sil h]; simp
  · intro T msg err sil c m h
    simp [getStatusMessage, statusSchemaManager, initialSchema,
      schemaGet, bucketGet] at h
    obtain rfl : c = 200 := h.1.symm
    obtain rfl : m = "Success" := h.2.symm
    have hcl : classify statusSchemaManager.schema 200 = some .SUCCESS := by
      decide
    rw [logStatus_success statusSchemaManager ⟨200, none⟩ msg err sil hcl]
    refine ⟨rfl, rfl, ?_⟩
    have hr : resolveMessage statusSchemaManager.schema ⟨200, none⟩ =
        "Success" := by decide
    rw [hr]

/-- Witness for C1: code `200` is registered under SUCCESS with message
`Success`; code `404` is classified ERROR. -/
theorem claim_C1_witness :
    (logStatus statusSchemaManager ⟨200, none⟩ JSValue.obj .undef
        none).1.data = some JSValue.obj
    ∧ (logStatus statusSchemaManager ⟨200, none⟩ JSValue.obj .undef
        none).1.error = none
    ∧ (logStatus statusSchemaManager ⟨200, none⟩ JSValue.obj .undef
        none).1.status.message = some "Success"
    ∧ (logStatus statusSchemaManager ⟨404, none⟩ JSValue.obj .undef
        none).1.data = none := by
  refine ⟨?_, ?_, ?_, ?_⟩
  · exact (claim_C1.2 JSValue JSValue.obj .undef none 200 "Success"
      (by decide)).1
  · exact (claim_C1.2 JSValue JSValue.obj .undef none 200 "Success"
      (by decide)).2.1
  · exact (claim_C1.2 JSValue JSValue.obj .undef none 200 "Success"
      (by decide)).2.2
  · exact ((claim_C1.1 JSValue statusSchemaManager ⟨404, none⟩ JSValue.obj
      .undef none).2.2 (Or.inl (by decide))).1

lemma seeded_error_code (c : Int) (m : String)
    (h : getStatusMessage statusSchemaManager .ERROR c = some m) :
    classify statusSchemaManager.schema c = some .ERROR
    ∧ resolveMessage statusSchemaManager.schema ⟨c, none⟩ = m := by
  simp [getStatusMessage, statusSchemaManager, initialSchema,
    schemaGet, bucketGet] at h
  split_ifs at h with h1 h2 h3 h4 h5
  · obtain rfl : c = 400 := h1.symm
    obtain rfl : m = "Bad Request" := by simpa using h.symm
    exact ⟨by decide, by decide⟩
  · obtain rfl : c = 401 := h2.symm
    obtain rfl : m = "Unauthorized" := by simpa using h.symm
    exact ⟨by decide, by decide⟩
  · obtain rfl : c = 403 := h3.symm
    obtain rfl : m = "Forbidden" := by simpa using h.symm
    exact ⟨by decide, by decide⟩
  · obtain rfl : c = 404 := h4.symm
    obtain rfl : m = "Not Found" := by simpa using h.symm
    exact ⟨by decide, by decide⟩
  · obtain rfl : c = 500 := h5.symm
    obtain rfl : m = "Internal Server Error" := by simpa using h.symm
    exact ⟨by decide, by decide⟩

/-- C3: for every code registered under ERROR in the seeded registry,
supplying the error value `"X"` yields an envelope with `error = "X"`
(generally, a truthy error-like value contributes its message text and
any other truthy value is used as-is), and supplying no error yields
`error` equal to the resolved message.  The embedding is total, so no
exception is raised on either path. -/
theorem claim_C3 {T : Type} (msg : T) (sil : Option Bool) (c : Int)
    (m : String)
    (h : getStatusMessage statusSchemaManager .ERROR c = some m) :
    (logStatus statusSchemaManager ⟨c, none⟩ msg (.str "X") sil).1.error
        = some (.str "X")
    ∧ (logStatus statusSchemaManager ⟨c, none⟩ msg .undef sil).1.error
        = some (.str m)
    ∧ ∀ v : JSValue, truthy v = true →
        (logStatus statusSchemaManager ⟨c, none⟩ msg v sil).1.error
          = some (stringifyErr v) := by
  obtain ⟨hE, hm⟩ := seeded_error_code c m h
  refine ⟨?_, ?_, ?_⟩
  · rw [logStatus_error statusSchemaManager ⟨c, none⟩ msg (.str "X") sil hE]
    simp [truthy, stringifyErr]
  · rw [logStatus_error statusSchemaManager ⟨c, none⟩ msg .undef sil hE]
    simp [truthy, hm]
  · intro v hv
    rw [logStatus_error statusSchemaManager ⟨c, none⟩ msg v sil hE, hv]
    simp

/-- Witness for C3 at the registered ERROR code `404`. -/
theorem claim_C3_witness :
    (logStatus statusSchemaManager ⟨404, none⟩ JSValue.obj (.str "X")
        none).1.error = some (.str "X")
    ∧ (logStatus statusSchemaManager ⟨404, none⟩ JSValue.obj .undef
        none).1.error = some (.str "Not Found")
    ∧ (logStatus statusSchemaManager ⟨404, none⟩ JSValue.obj
        (.errObj "E") none).1.error = some (.str "E") := by
  have h := claim_C3 JSValue.obj none 404 "Not Found" (by decide)
  exact ⟨h.1, h.2.1, h.2.2 (.errObj "E") (by decide)⟩

lemma bucketGet_bucketSet_self (b : Bucket) (c : Int) (m : String) :
    bucketGet (bucketSet b c m) c = some m := by
  induction b with
  | nil => simp [bucketSet, bucketGet]
  | cons hd tl ih =>
    obtain ⟨c', m'⟩ := hd
    by_cases hc : c' = c
    · simp [bucketSet, hc, bucketGet]
    · simp [bucketSet, hc, bucketGet, ih]

lemma bucketSet_idem (b : Bucket) (c : Int) (m : String) :
    bucketSet (bucketSet b c m) c m = bucketSet b c m := by
  induction b with
  | nil => simp [bucketSet]
  | cons hd tl ih =>
    obtain ⟨c', m'⟩ := hd
    by_cases hc : c' = c
    · simp [bucketSet, hc]
    · simp [bucketSet, hc, ih]

lemma schemaGet_bind_schemaUpdate (l : Schema) (t : StatusType) (c : Int)
    (m : String) :
    (schemaGet (schemaUpdate l t c m) t).bind (fun b => bucketGet b c)
      = some m := by
  induction l with
  | nil => simp [schemaUpdate, schemaGet, bucketGet_bucketSet_self]
  | cons hd tl ih =>
    obtain ⟨t', b⟩ := hd
    by_cases ht : t' = t
    · simp [schemaUpdate, ht, schemaGet, bucketGet_bucketSet_self]
    · simp [schemaUpdate, ht, schemaGet, ih]

lemma schemaUpdate_idem (l : Schema) (t : StatusType) (c : Int) (m : String) :
    schemaUpdate (schemaUpdate l t c m) t c m = schemaUpdate l t c m := by
  induction l with
  | nil => simp [schemaUpdate, bucketSet_idem]
  | cons hd tl ih =>
    obtain ⟨t', b⟩ := hd
    by_cases ht : t' = t
    · simp [schemaUpdate, ht, bucketSet_idem]
    · simp [schemaUpdate, ht, ih]

/-- C8: `updateStatus` followed by `getStatusMessage` for the same
(class, code) returns the written message, from any prior registry
state, and `updateStatus` is idempotent: repeating the call with the
same arguments leaves the registry in the same state. -/
theorem claim_C8 (s : ManagerState) (t : StatusType) (c : Int) (m : String) :
    getStatusMessage (updateStatus s t c m) t c = some m
    ∧ updateStatus (updateStatus s t c m) t c m = updateStatus s t c m := by
  constructor
  · exact schemaGet_bind_schemaUpdate s.schema t c m
  · show ManagerState.mk _ _ = ManagerState.mk _ _
    simp [updateStatus, schemaUpdate_idem]

lemma bucketGet_bucketDel_self (b : Bucket) (c : Int) :
    bucketGet (bucketDel b c) c = none := by
  induction b with
  | nil => simp [bucketDel, bucketGet]
  | cons hd tl ih =>
    obtain ⟨c', m'⟩ := hd
    by_cases hc : c' = c
    · simp [bucketDel, hc, ih]
    · simp [bucketDel, hc, bucketGet, ih]

lemma bucketDel_eq_self_of_get_none (b : Bucket) (c : Int)
    (h : bucketGet b c = none) : bucketDel b c = b := by
  induction b with
  | nil => rfl
  | cons hd tl ih =>
    obtain ⟨c', m'⟩ := hd
    by_cases hc : c' = c
    · simp [bucketGet, hc] at h
    · simp only [bucketGet, hc, if_false] at h
      simp [bucketDel, hc, ih h]

lemma bucketDel_eq_nil_of_all (b : Bucket) (c : Int)
    (h : ∀ e ∈ b, e.1 = c) : bucketDel b c = [] := by
  induction b with
  | nil => rfl
  | cons hd tl ih =>
    have hc : hd.1 = c := h hd (List.mem_cons_self _ _)
    obtain ⟨c', m'⟩ := hd
    simp only at hc
    simp only [bucketDel, hc, if_true]
    exact ih (fun e he => h e (List.mem_cons_of_mem _ he))

lemma bucketSet_ne_nil (b : Bucket) (c : Int) (m : String) :
    bucketSet b c m ≠ [] := by
  cases b with
  | nil => simp [bucketSet]
  | cons hd tl =>
    obtain ⟨c', m'⟩ := hd
    by_cases hc : c' = c <;> simp [bucketSet, hc]

lemma schemaGet_eq_none_of_not_mem (l : Schema) (t : StatusType)
    (h : t ∉ l.map Prod.fst) : schemaGet l t = none := by
  induction l with
  | nil => rfl
  | cons hd tl ih =>
    obtain ⟨t', b⟩ := hd
    simp only [List.map_cons, List.mem_cons] at h
    push_neg at h
    simp only [schemaGet, show t' = t ↔ False by simpa using fun he => h.1 he.symm,
      if_false]
    exact ih h.2

lemma schemaGet_schemaUpdate_self (l : Schema) (t : StatusType) (c : Int)
    (m : String) :
    schemaGet (schemaUpdate l t c m) t =
      some (bucketSet ((schemaGet l t).getD []) c m) := by
  induction l with
  | nil => simp [schemaUpdate, schemaGet]
  | cons hd tl ih =>
    obtain ⟨t', b⟩ := hd
    by_cases ht : t' = t
    · simp [schemaUpdate, ht, schemaGet]
    · simp [schemaUpdate, ht, schemaGet, ih]

lemma mem_keys_schemaUpdate (l : Schema) (t : StatusType) (c : Int)
    (m : String) (x : StatusType)
    (h : x ∈ (schemaUpdate l t c m).map Prod.fst) :
    x ∈ l.map Prod.fst ∨ x = t := by
  induction l with
  | nil =>
    simp [schemaUpdate] at h
    exact Or.inr h
  | cons hd tl ih =>
    obtain ⟨t', b⟩ := hd
    simp only [schemaUpdate] at h
    by_cases ht : t' = t
    · rw [if_pos ht] at h
      left
      simp only [List.map_cons, List.mem_cons] at h ⊢
      exact h
    · rw [if_neg ht] at h
      simp only [List.map_cons, List.mem_cons] at h ⊢
      rcases h with h | h
      · exact Or.inl (Or.inl h)
      · rcases ih h with h2 | h2
        · exact Or.inl (Or.inr h2)
        · exact Or.inr h2

lemma nodup_keys_schemaUpdate (l : Schema) (t : StatusType) (c : Int)
    (m : String) (h : (l.map Prod.fst).Nodup) :
    ((schemaUpdate l t c m).map Prod.fst).Nodup := by
  induction l with
  | nil => simp [schemaUpdate]
  | cons hd tl ih =>
    obtain ⟨t', b⟩ := hd
    simp only [List.map_cons, List.nodup_cons] at h
    simp only [schemaUpdate]
    by_cases ht : t' = t
    · rw [if_pos ht]
      simp only [List.map_cons, List.nodup_cons]
      exact h
    · rw [if_neg ht]
      simp only [List.map_cons, List.nodup_cons]
      refine ⟨?_, ih h.2⟩
      intro hmem
      rcases mem_keys_schemaUpdate tl t c m t' hmem with h2 | h2
      · exact h.1 h2
      · exact ht h2

lemma keys_schemaRemove_sublist (l : Schema) (t : StatusType) (c : Int) :
    ((schemaRemove l t c).map Prod.fst).Sublist (l.map Prod.fst) := by
  induction l with
  | nil => simp [schemaRemove]
  | cons hd tl ih =>
    obtain ⟨t', b⟩ := hd
    simp only [schemaRemove]
    by_cases ht : t' = t
    · rw [if_pos ht]
      by_cases hdel : bucketDel b c = []
      · rw [if_pos hdel]
        exact List.Sublist.cons _ (List.Sublist.refl _)
      · rw [if_neg hdel]
        exact List.Sublist.cons₂ _ (List.Sublist.refl _)
    · rw [if_neg ht]
      exact List.Sublist.cons₂ _ ih

lemma schemaRemove_of_get_none (l : Schema) (t : StatusType) (c : Int)
    (h : schemaGet l t = none) : schemaRemove l t c = l := by
  induction l with
  | nil => rfl
  | cons hd tl ih =>
    obtain ⟨t', b⟩ := hd
    by_cases ht : t' = t
    · simp [schemaGet, ht] at h
    · simp only [schemaGet, ht, if_false] at h
      simp only [schemaRemove]
      rw [if_neg ht, ih h]

lemma schemaGet_schemaRemove_self (l : Schema) (t : StatusType) (c : Int)
    (b : Bucket) (hnd : (l.map Prod.fst).Nodup) (h : schemaGet l t = some b) :
    schemaGet (schemaRemove l t c) t =
      (if bucketDel b c = [] then none else some (bucketDel b c)) := by
  induction l with
  | nil => simp [schemaGet] at h
  | cons hd tl ih =>
    obtain ⟨t', b'⟩ := hd
    simp only [List.map_cons, List.nodup_cons] at hnd
    simp only [schemaRemove]
    by_cases ht : t' = t
    · rw [if_pos ht]
      simp only [schemaGet, ht, if_true, Option.some_inj] at h
      subst h
      by_cases hdel : bucketDel b' c = []
      · rw [if_pos hdel, if_pos hdel]
        exact schemaGet_eq_none_of_not_mem tl t (ht ▸ hnd.1)
      · rw [if_neg hdel, if_neg hdel]
        simp [schemaGet, ht]
    · rw [if_neg ht]
      simp only [schemaGet, ht, if_false] at h
      simp only [schemaGet, ht, if_false]
      exact ih hnd.2 h

lemma buckets_ne_nil_schemaUpdate (l : Schema) (t : StatusType) (c : Int)
    (m : String) (h : ∀ p ∈ l, p.2 ≠ []) :
    ∀ p ∈ schemaUpdate l t c m, p.2 ≠ [] := by
  induction l with
  | nil =>
    intro p hp
    simp only [schemaUpdate, List.mem_singleton] at hp
    rw [hp]
    exact bucketSet_ne_nil [] c m
  | cons hd tl ih =>
    obtain ⟨t', b⟩ := hd
    intro p hp
    simp only [schemaUpdate] at hp
    by_cases ht : t' = t
    · rw [if_pos ht] at hp
      rcases List.mem_cons.mp hp with h1 | h1
      · rw [h1]
        exact bucketSet_ne_nil b c m
      · exact h p (List.mem_cons_of_mem _ h1)
    · rw [if_neg ht] at hp
      rcases List.mem_cons.mp hp with h1 | h1
      · rw [h1]
        exact h (t', b) (List.mem_cons_self _ _)
      · exact ih (fun q hq => h q (List.mem_cons_of_mem _ hq)) p h1

lemma buckets_ne_nil_schemaRemove (l : Schema) (t : StatusType) (c : Int)
    (h : ∀ p ∈ l, p.2 ≠ []) :
    ∀ p ∈ schemaRemove l t c, p.2 ≠ [] := by
  induction l with
  | nil => intro p hp; simp [schemaRemove] at hp
  | cons hd tl ih =>
    obtain ⟨t', b⟩ := hd
    intro p hp
    simp only [schemaRemove] at hp
    by_cases ht : t' = t
    · rw [if_pos ht] at hp
      by_cases hdel : bucketDel b c = []
      · rw [if_pos hdel] at hp
        exact h p (List.mem_cons_of_mem _ hp)
      · rw [if_neg hdel] at hp
        rcases List.mem_cons.mp hp with h1 | h1
        · rw [h1]
          exact hdel
        · exact h p (List.mem_cons_of_mem _ h1)
    · rw [if_neg ht] at hp
      rcases List.mem_cons.mp hp with h1 | h1
      · rw [h1]
        exact h (t', b) (List.mem_cons_self _ _)
      · exact ih (fun q hq => h q (List.mem_cons_of_mem _ hq)) p h1

/-- Every reachable registry state has duplicate-free class keys (a
JavaScript object cannot carry the same key twice). -/
lemma reachable_keys_nodup (s : ManagerState) (h : Reachable s) :
    (s.schema.map Prod.fst).Nodup := by
  induction h with
  | init => decide
  | update t c m _ ih => exact nodup_keys_schemaUpdate _ t c m ih
  | remove t c _ ih => exact List.Nodup.sublist (keys_schemaRemove_sublist _ t c) ih
  | silence b _ ih => exact ih

/-- Every reachable registry state has no empty class bucket:
`removeStatus` deletes a bucket the moment it becomes empty, and
`updateStatus` only ever produces non-empty buckets. -/
lemma reachable_buckets_ne_nil (s : ManagerState) (h : Reachable s) :
    ∀ p ∈ s.schema, p.2 ≠ [] := by
  induction h with
  | init => decide
  | update t c m _ ih => exact buckets_ne_nil_schemaUpdate _ t c m ih
  | remove t c _ ih => exact buckets_ne_nil_schemaRemove _ t c ih
  | silence b _ ih => exact ih

lemma schemaRemove_noop (l : Schema) (t : StatusType) (c : Int)
    (hne : ∀ p ∈ l, p.2 ≠ [])
    (h : (schemaGet l t).bind (fun b => bucketGet b c) = none) :
    schemaRemove l t c = l := by
  cases hg : schemaGet l t with
  | none => exact schemaRemove_of_get_none l t c hg
  | some b =>
    rw [hg, Option.some_bind] at h
    induction l with
    | nil => rfl
    | cons hd tl ih =>
      obtain ⟨t', b'⟩ := hd
      simp only [schemaRemove]
      by_cases ht : t' = t
      · rw [if_pos ht]
        simp only [schemaGet, ht, if_true, Option.some_inj] at hg
        subst hg
        rw [bucketDel_eq_self_of_get_none b' c h]
        rw [if_neg (hne (t', b') (List.mem_cons_self _ _))]
      · rw [if_neg ht]
        simp only [schemaGet, ht, if_false] at hg
        rw [ih (fun q hq => hne q (List.mem_cons_of_mem _ hq)) hg]

/-- C9: on any reachable registry, `updateStatus` then `removeStatus`
for the same (class, code) leaves `getStatusMessage` absent for that
pair; if the written entry was the only one in the class bucket, the
class key itself is absent from `getSchema()`; and `removeStatus` on an
absent entry is a no-op. -/
theorem claim_C9 (s : ManagerState) (t : StatusType) (c : Int) (m : String)
    (hs : Reachable s) :
    getStatusMessage (removeStatus (updateStatus s t c m) t c) t c = none
    ∧ ((∀ e ∈ (schemaGet (getSchema (updateStatus s t c m)) t).getD [],
          e.1 = c) →
        schemaGet (getSchema (removeStatus (updateStatus s t c m) t c)) t
          = none)
    ∧ (getStatusMessage s t c = none → removeStatus s t c = s) := by
  have hnd : ((updateStatus s t c m).schema.map Prod.fst).Nodup :=
    nodup_keys_schemaUpdate s.schema t c m (reachable_keys_nodup s hs)
  have hup : schemaGet (updateStatus s t c m).schema t =
      some (bucketSet ((schemaGet s.schema t).getD []) c m) :=
    schemaGet_schemaUpdate_self s.schema t c m
  have hrem := schemaGet_schemaRemove_self (updateStatus s t c m).schema t c
    _ hnd hup
  refine ⟨?_, ?_, ?_⟩
  · show (schemaGet (schemaRemove (updateStatus s t c m).schema t c) t).bind
      (fun b => bucketGet b c) = none
    rw [hrem]
    split_ifs with hd
    · rfl
    · rw [Option.some_bind]
      exact bucketGet_bucketDel_self _ c
  · intro hall
    show schemaGet (schemaRemove (updateStatus s t c m).schema t c) t = none
    rw [hrem]
    rw [show getSchema (updateStatus s t c m) = (updateStatus s t c m).schema
      from rfl, hup] at hall
    simp only [Option.getD_some] at hall
    rw [if_pos (bucketDel_eq_nil_of_all _ c hall)]
  · intro hnone
    show ManagerState.mk (schemaRemove s.schema t c) s.silentMode = s
    rw [schemaRemove_noop s.schema t c (reachable_buckets_ne_nil s hs) hnone]

/-- Witness for C9: write then remove (SUCCESS, 200) on the seeded
registry (its SUCCESS bucket holds only code 200), and a no-op removal
of the unregistered (WARN, 999). -/
theorem claim_C9_witness :
    getStatusMessage (removeStatus (updateStatus statusSchemaManager
        .SUCCESS 200 "Done") .SUCCESS 200) .SUCCESS 200 = none
    ∧ schemaGet (getSchema (removeStatus (updateStatus statusSchemaManager
        .SUCCESS 200 "Done") .SUCCESS 200)) .SUCCESS = none
    ∧ removeStatus statusSchemaManager .WARN 999 = statusSchemaManager := by
  have h1 := claim_C9 statusSchemaManager .SUCCESS 200 "Done" Reachable.init
  have h2 := claim_C9 statusSchemaManager .WARN 999 "x" Reachable.init
  exact ⟨h1.1, h1.2.1 (by decide), h2.2.2 (by decide)⟩

lemma classify_mem (l : Schema) (c : Int) (t : StatusType)
    (h : classify l c = some t) :
    ∃ b, (t, b) ∈ l ∧ (bucketGet b c).isSome = true := by
  induction l with
  | nil => simp [classify] at h
  | cons hd tl ih =>
    obtain ⟨t', b'⟩ := hd
    simp only [classify] at h
    by_cases hb : (bucketGet b' c).isSome = true
    · rw [if_pos hb] at h
      obtain rfl : t' = t := Option.some_inj.mp h
      exact ⟨b', List.mem_cons_self _ _, hb⟩
    · rw [if_neg hb] at h
      obtain ⟨b, hmem, hbb⟩ := ih h
      exact ⟨b, List.mem_cons_of_mem _ hmem, hbb⟩

lemma schemaGet_of_mem_nodup (l : Schema)
    (hnd : (l.map Prod.fst).Nodup) (t : StatusType) (b : Bucket)
    (h : (t, b) ∈ l) : schemaGet l t = some b := by
  induction l with
  | nil => simp at h
  | cons hd tl ih =>
    obtain ⟨t', b'⟩ := hd
    simp only [List.map_cons, List.nodup_cons] at hnd
    rcases List.mem_cons.mp h with h1 | h1
    · obtain ⟨rfl, rfl⟩ := Prod.mk.inj h1.symm
      simp [schemaGet]
    · have htne : t' ≠ t := by
        intro he
        exact hnd.1 (he ▸ (List.mem_map_of_mem Prod.fst h1))
      simp only [schemaGet, htne, if_false]
      exact ih hnd.2 h1

lemma schemaGet_mem (l : Schema) (t : StatusType) (b : Bucket)
    (h : schemaGet l t = some b) : (t, b) ∈ l := by
  induction l with
  | nil => simp [schemaGet] at h
  | cons hd tl ih =>
    obtain ⟨t', b'⟩ := hd
    by_cases ht : t' = t
    · subst ht
      simp only [schemaGet, if_true, Option.some_inj] at h
      rw [← h]
      exact List.mem_cons_self _ _
    · simp only [schemaGet, ht, if_false] at h
      exact List.mem_cons_of_mem _ (ih h)

lemma containsIn_of_classify (l : Schema) (c : Int) (t : StatusType)
    (hnd : (l.map Prod.fst).Nodup) (h : classify l c = some t) :
    containsIn l t c = true := by
  obtain ⟨b, hmem, hb⟩ := classify_mem l c t h
  unfold containsIn
  rw [schemaGet_of_mem_nodup l hnd t b hmem, Option.some_bind]
  exact hb

lemma classify_ne_none_of_containsIn (l : Schema) (c : Int) (t : StatusType)
    (h : containsIn l t c = true) : classify l c ≠ none := by
  intro hcl
  unfold containsIn at h
  cases hg : schemaGet l t with
  | none => rw [hg] at h; simp at h
  | some b =>
    rw [hg, Option.some_bind] at h
    rw [(classify_eq_none_iff l c).mp hcl (t, b) (schemaGet_mem l t b hg)]
      at h
    simp at h

/-- C5 counterexample: in the reachable state `recreatedState` —
obtained by emptying the SUCCESS bucket (which deletes its key) and
then re-registering a SUCCESS entry for code 300 — the scan of
`logStatus` classifies 300 as WARN, while a fixed-order
SUCCESS, WARN, ERROR scan would classify it as SUCCESS: classification
does not follow the fixed order in every reachable state. -/
theorem claim_C5_counterexample :
    Reachable recreatedState
    ∧ classify recreatedState.schema 300 = some .WARN
    ∧ classifyFixedOrder recreatedState.schema 300 = some .SUCCESS
    ∧ ¬(classify recreatedState.schema 300 =
        classifyFixedOrder recreatedState.schema 300) :=
  ⟨Reachable.update .SUCCESS 300 "Fine"
      (Reachable.remove .SUCCESS 200 Reachable.init),
   by decide, by decide, by decide⟩

/-- C5, amended: classification uses the registry's *current* key
iteration order (initially SUCCESS, WARN, ERROR; a class bucket that is
emptied and recreated moves to the end) and takes the first class whose
bucket contains the code; whenever the code is present in at most one
class — the intended situation — this agrees with the fixed-order
SUCCESS, WARN, ERROR scan, in every reachable registry state. -/
theorem claim_C5 (s : ManagerState) (hs : Reachable s) (c : Int)
    (huniq : ∀ t₁ t₂ : StatusType, containsIn s.schema t₁ c = true →
      containsIn s.schema t₂ c = true → t₁ = t₂) :
    classify s.schema c = classifyFixedOrder s.schema c := by
  cases hcl : classify s.schema c with
  | none =>
    have hcont : ∀ t, containsIn s.schema t c = false := by
      intro t
      cases hcc : containsIn s.schema t c with
      | false => rfl
      | true => exact absurd hcl (classify_ne_none_of_containsIn _ c t hcc)
    unfold classifyFixedOrder
    rw [hcont .SUCCESS, hcont .WARN, hcont .ERROR]
    simp
  | some t =>
    have hc : containsIn s.schema t c = true :=
      containsIn_of_classify s.schema c t (reachable_keys_nodup s hs) hcl
    have hother : ∀ t', t' ≠ t → containsIn s.schema t' c = false := by
      intro t' hne
      cases hcc : containsIn s.schema t' c with
      | false => rfl
      | true => exact absurd (huniq t' t hcc hc) hne
    cases t with
    | SUCCESS => simp [classifyFixedOrder, hc]
    | WARN =>
      have hS : containsIn s.schema .SUCCESS c = false := hother _ (by decide)
      simp [classifyFixedOrder, hS, hc]
    | ERROR =>
      have hS : containsIn s.schema .SUCCESS c = false := hother _ (by decide)
      have hW : containsIn s.schema .WARN c = false := hother _ (by decide)
      simp [classifyFixedOrder, hS, hW, hc]

/-- Witness for the amended C5 at the seeded registry and code 404,
which is present only in the ERROR class. -/
theorem claim_C5_witness :
    classify statusSchemaManager.schema 404 =
      classifyFixedOrder statusSchemaManager.schema 404 :=
  claim_C5 statusSchemaManager Reachable.init 404
    (by intro t₁ t₂ h1 h2; cases t₁ <;> cases t₂ <;> revert h1 h2 <;> decide)
